import Mathlib

set_option maxRecDepth 8000

namespace CostAnalysis

/-!
Shallow embedding of the statement-import core of the cost-analysis
repository (src/expenses/services/importers.py, src/expenses/models.py,
src/expenses/forms.py, src/expenses/views.py).

Python decimal.Decimal values are modelled by PyDec: a finite value is a
coefficient and a scale standing for coefficient / 10 ^ scale (the
coefficient-and-exponent form Decimal itself uses), and the special values
(infinities, quiet and signaling NaN) are explicit constructors.
Operations that may raise InvalidOperation return Option, with none
standing for the raised exception; finite arithmetic is exact, which is
what Decimal gives for the magnitudes statements contain.  Numeric cell
values (ints and floats) are modelled by the exact decimal value their
str() form shows, which is what Decimal(str(raw)) produces.
-/

/-- Model of a Python decimal.Decimal value; fin n s denotes n / 10 ^ s. -/
inductive PyDec where
  | fin (n : ℤ) (s : ℕ)
  | inf (neg : Bool)
  | nan (signaling : Bool)
deriving DecidableEq, Repr

/-- Unary minus on Decimal: quiet on quiet NaN, raises on signaling NaN. -/
def pyNeg : PyDec → Option PyDec
  | .fin n s => some (.fin (-n) s)
  | .inf s => some (.inf (!s))
  | .nan false => some (.nan false)
  | .nan true => none

/-- abs() on Decimal: quiet on quiet NaN, raises on signaling NaN. -/
def pyAbs : PyDec → Option PyDec
  | .fin n s => some (.fin |n| s)
  | .inf _ => some (.inf false)
  | .nan false => some (.nan false)
  | .nan true => none

/-- The test (d >= 0); ordered comparison with any NaN raises. -/
def pyGe0 : PyDec → Option Bool
  | .fin n _ => some (decide (0 ≤ n))
  | .inf s => some (!s)
  | .nan _ => none

/-- The test (d < 0); ordered comparison with any NaN raises. -/
def pyLt0 : PyDec → Option Bool
  | .fin n _ => some (decide (n < 0))
  | .inf s => some s
  | .nan _ => none

/-- The test (d == 0); quiet NaN compares unequal without raising. -/
def pyEq0 : PyDec → Option Bool
  | .fin n _ => some (decide (n = 0))
  | .inf _ => some false
  | .nan false => some false
  | .nan true => none

/-- The test (d != 0); quiet NaN compares unequal without raising. -/
def pyNe0 : PyDec → Option Bool
  | .fin n _ => some (decide (n ≠ 0))
  | .inf _ => some true
  | .nan false => some true
  | .nan true => none

/-- Decimal addition as used for the running total. -/
def pyAdd : PyDec → PyDec → Option PyDec
  | .nan true, _ => none
  | _, .nan true => none
  | .nan false, _ => some (.nan false)
  | _, .nan false => some (.nan false)
  | .inf s, .inf t => if s = t then some (.inf s) else none
  | .inf s, .fin _ _ => some (.inf s)
  | .fin _ _, .inf t => some (.inf t)
  | .fin a sa, .fin b sb =>
    some (.fin (a * 10 ^ (max sa sb - sa) + b * 10 ^ (max sa sb - sb)) (max sa sb))

/-! String helpers mirroring the Python primitives the importers use. -/

/-- Whitespace characters recognised by str.strip, str.split and the
regex class for whitespace (ASCII whitespace plus the no-break space). -/
def pyIsWs (c : Char) : Bool :=
  c = ' ' || c = '\t' || c = '\n' || c = '\r' || c = '\x0b' || c = '\x0c' || c = '\xa0'

def pyStripChars (cs : List Char) : List Char :=
  ((cs.dropWhile pyIsWs).reverse.dropWhile pyIsWs).reverse

/-- str.strip() with no arguments. -/
def pyStrip (s : String) : String := String.mk (pyStripChars s.data)

/-- Longest run of characters satisfying p, with the remainder. -/
def spanP (p : Char → Bool) : List Char → List Char × List Char
  | [] => ([], [])
  | c :: cs =>
    if p c then
      let r := spanP p cs
      (c :: r.1, r.2)
    else ([], c :: cs)

def splitWsAux : List Char → List Char → List String
  | acc, [] => if acc.isEmpty then [] else [String.mk acc.reverse]
  | acc, c :: cs =>
    if pyIsWs c then
      if acc.isEmpty then splitWsAux [] cs
      else String.mk acc.reverse :: splitWsAux [] cs
    else splitWsAux (c :: acc) cs

/-- str.split() with no arguments: split on whitespace runs, no empties. -/
def pySplitWs (s : String) : List String := splitWsAux [] s.data

def lcAscii (c : Char) : Char :=
  if 'A' ≤ c ∧ c ≤ 'Z' then Char.ofNat (c.toNat + 32) else c

/-- str.lower() restricted to the alphabets the data uses
(ASCII and the Russian Cyrillic block). -/
def ruLowerChar (c : Char) : Char :=
  if 'А' ≤ c ∧ c ≤ 'Я' then Char.ofNat (c.toNat + 32)
  else if c = 'Ё' then 'ё'
  else lcAscii c

def ruLower (s : String) : String := String.mk (s.data.map ruLowerChar)

def listStartsWith : List Char → List Char → Bool
  | [], _ => true
  | _ :: _, [] => false
  | p :: ps, c :: cs => p = c && listStartsWith ps cs

def listHasSub (pat : List Char) : List Char → Bool
  | [] => pat.isEmpty
  | c :: cs => listStartsWith pat (c :: cs) || listHasSub pat cs

/-- The Python substring test (pat in hay). -/
def strContainsB (hay pat : String) : Bool := listHasSub pat.data hay.data

/-- String slicing s[:255] (Python slices count code points). -/
def take255 (s : String) : String := String.mk (s.data.take 255)

/-! Model of the decimal.Decimal string constructor. -/

def digitVal (c : Char) : ℕ := c.toNat - 48

def digitsToNat (l : List Char) : ℕ :=
  l.foldl (fun a c => a * 10 + digitVal c) 0

def firstSome? : List α → (α → Option β) → Option β
  | [], _ => none
  | a :: l, f => match f a with
    | some b => some b
    | none => firstSome? l f

/-- Exponent part of a decimal numeric string: optional sign then digits,
consuming the whole remainder. -/
def parseSignedDigits (cs : List Char) : Option ℤ :=
  let p : Bool × List Char :=
    match cs with
    | '+' :: r => (false, r)
    | '-' :: r => (true, r)
    | r => (false, r)
  if p.2 ≠ [] ∧ p.2.all Char.isDigit then
    some (if p.1 then -(digitsToNat p.2 : ℤ) else (digitsToNat p.2 : ℤ))
  else none

/-- Build the finite value coefficient * 10 ^ (exponent - scale). -/
def pyDecCoeff (ip fp : List Char) (e : ℤ) (neg : Bool) : PyDec :=
  let e2 : ℤ := e - fp.length
  let c : ℤ := (digitsToNat (ip ++ fp) : ℤ)
  let sc : ℤ := if neg then -c else c
  if 0 ≤ e2 then .fin (sc * 10 ^ e2.toNat) 0 else .fin sc (-e2).toNat

/-- The Decimal(string) constructor: leading/trailing whitespace and
underscores are removed, then the decimal numeric-string grammar is applied
(sign, coefficient with optional fraction, optional exponent, or the
case-insensitive infinity / NaN / sNaN forms).  none models the
InvalidOperation raised on any other input. -/
def pyDecFromString (s : String) : Option PyDec :=
  let cs0 := (pyStripChars s.data).filter (fun c => c ≠ '_')
  let sp : Bool × List Char :=
    match cs0 with
    | '+' :: r => (false, r)
    | '-' :: r => (true, r)
    | r => (false, r)
  let neg := sp.1
  let cs := sp.2
  let low := cs.map lcAscii
  if low = "inf".data ∨ low = "infinity".data then some (.inf neg)
  else if listStartsWith "nan".data low ∧ (low.drop 3).all Char.isDigit then
    some (.nan false)
  else if listStartsWith "snan".data low ∧ (low.drop 4).all Char.isDigit then
    some (.nan true)
  else
    let ipr := spanP Char.isDigit cs
    let fpr : List Char × List Char :=
      match ipr.2 with
      | '.' :: r => spanP Char.isDigit r
      | r => ([], r)
    let ip := ipr.1
    let fp := fpr.1
    if ip.isEmpty ∧ fp.isEmpty then none
    else
      match fpr.2 with
      | [] => some (pyDecCoeff ip fp 0 neg)
      | c :: r3 =>
        if c = 'e' ∨ c = 'E' then
          match parseSignedDigits r3 with
          | some e => some (pyDecCoeff ip fp e neg)
          | none => none
        else none

/-! The Amount Normalizer (importers._normalize_amount). -/

/-- Argument of the amount normalizer: None, a native numeric value
(int / float / Decimal, modelled by the exact decimal its str() shows),
or text. -/
inductive AmountInput where
  | anone
  | num (n : ℤ) (s : ℕ)
  | astr (s : String)
deriving DecidableEq, Repr

/-- The textual normalization chain: drop no-break spaces, spaces and plus
signs, map the typographic minus to the ASCII minus and commas to dots. -/
def normAmountText (s : String) : String :=
  String.mk (s.data.filterMap (fun c =>
    if c = '\xa0' ∨ c = ' ' ∨ c = '+' then none
    else if c = '−' then some '-'
    else if c = ',' then some '.'
    else some c))

/-- importers._normalize_amount.  The error value models the uncaught
InvalidOperation raised by Decimal(text) on unparseable non-empty text. -/
def normalize_amount : AmountInput → Except Unit PyDec
  | .anone => .ok (.fin 0 0)
  | .num n s => .ok (.fin n s)
  | .astr s =>
    let text := normAmountText s
    if text = "" then .ok (.fin 0 0)
    else
      match pyDecFromString text with
      | some d => .ok d
      | none => .error ()

/-! Calendar dates and the two date parsers. -/

/-- A Python datetime.date triple.  Python date objects are valid by
construction; free triples are validated by pyDateValid exactly where the
source lets datetime raise ValueError. -/
structure PyDate where
  year : ℕ
  month : ℕ
  day : ℕ
deriving DecidableEq, Repr

def isLeapYear (y : ℕ) : Bool :=
  y % 4 = 0 && (y % 100 ≠ 0 || y % 400 = 0)

def daysInMonth (y m : ℕ) : ℕ :=
  if m = 2 then (if isLeapYear y then 29 else 28)
  else if m = 4 ∨ m = 6 ∨ m = 9 ∨ m = 11 then 30
  else 31

/-- Validity as enforced by the datetime constructor (MINYEAR..MAXYEAR). -/
def pyDateValid (d : PyDate) : Bool :=
  1 ≤ d.year && d.year ≤ 9999 && 1 ≤ d.month && d.month ≤ 12 &&
  1 ≤ d.day && d.day ≤ daysInMonth d.year d.month

/-- The strptime character class for the day directive:
30-31, 10-29 or 01-09 as a two-character match. -/
def twoDigitDayOk (a b : Char) : Bool :=
  (a = '3' && (b = '0' || b = '1')) ||
  ((a = '1' || a = '2') && b.isDigit) ||
  (a = '0' && '1' ≤ b && b ≤ '9')

/-- The strptime character class for the month directive: 10-12 or 01-09. -/
def twoDigitMonthOk (a b : Char) : Bool :=
  (a = '1' && (b = '0' || b = '1' || b = '2')) ||
  (a = '0' && '1' ≤ b && b ≤ '9')

/-- Regex alternatives for the day directive, two-character matches first
(the order the strptime pattern tries them in, backtracking included). -/
def dayCands : List Char → List (ℕ × List Char)
  | a :: b :: r =>
    (if twoDigitDayOk a b then [(digitVal a * 10 + digitVal b, r)] else []) ++
    (if '1' ≤ a ∧ a ≤ '9' then [(digitVal a, b :: r)] else [])
  | [a] => if '1' ≤ a ∧ a ≤ '9' then [(digitVal a, [])] else []
  | [] => []

/-- Regex alternatives for the month directive. -/
def monthCands : List Char → List (ℕ × List Char)
  | a :: b :: r =>
    (if twoDigitMonthOk a b then [(digitVal a * 10 + digitVal b, r)] else []) ++
    (if '1' ≤ a ∧ a ≤ '9' then [(digitVal a, b :: r)] else [])
  | [a] => if '1' ≤ a ∧ a ≤ '9' then [(digitVal a, [])] else []
  | [] => []

/-- Exactly four digits ending the string (the year directive followed by
strptime's whole-string check). -/
def yearTail : List Char → Option ℕ
  | [a, b, c, d] =>
    if a.isDigit && b.isDigit && c.isDigit && d.isDigit then
      some (digitVal a * 1000 + digitVal b * 100 + digitVal c * 10 + digitVal d)
    else none
  | _ => none

/-- The regex phase of strptime with format day.month.4-digit-year. -/
def parseDMYchars (cs : List Char) : Option PyDate :=
  firstSome? (dayCands cs) (fun dc =>
    match dc.2 with
    | '.' :: r2 =>
      firstSome? (monthCands r2) (fun mc =>
        match mc.2 with
        | '.' :: r4 =>
          match yearTail r4 with
          | some y => some ⟨y, mc.1, dc.1⟩
          | none => none
        | _ => none)
    | _ => none)

/-- datetime.strptime(s, day.month.year numeric form).date().
none models the ValueError raised on a regex mismatch or on an invalid
calendar date. -/
def parseDDMMYYYY (s : String) : Option PyDate :=
  match parseDMYchars s.data with
  | some dt => if pyDateValid dt then some dt else none
  | none => none

/-- The MONTHS_RU table of importers.py, in insertion order. -/
def MONTHS_RU : List (String × ℕ) :=
  [("янв", 1), ("фев", 2), ("мар", 3), ("апр", 4), ("мая", 5), ("май", 5),
   ("июн", 6), ("июл", 7), ("авг", 8), ("сен", 9), ("сент", 9), ("окт", 10),
   ("ноя", 11), ("дек", 12)]

/-- The startswith scan over MONTHS_RU in insertion order. -/
def monthFromRu (t : String) : Option ℕ :=
  firstSome? MONTHS_RU (fun kv =>
    if listStartsWith kv.1.data t.data then some kv.2 else none)

/-- The regex character class for Russian letters used by the month-name
pattern (the contiguous Cyrillic block plus both yo letters). -/
def isRuLetter (c : Char) : Bool :=
  ('А' ≤ c && c ≤ 'я') || c = 'Ё' || c = 'ё'

/-- Try the month-name date pattern at one start position:
1-2 digits, whitespace, at least three Russian letters, optional period,
optional comma, whitespace, four digits.  Candidate day widths are tried
in the regex order (two digits, then one). -/
def matchRuDateAt (cs : List Char) : Option (ℕ × String × ℕ) :=
  firstSome? (dayDigitCands cs) (fun dc =>
    let w1 := spanP pyIsWs dc.2
    if w1.1.isEmpty then none
    else
      let lt := spanP isRuLetter w1.2
      if lt.1.length < 3 then none
      else
        let r4 := match lt.2 with | '.' :: t => t | t => t
        let r5 := match r4 with | ',' :: t => t | t => t
        let w2 := spanP pyIsWs r5
        if w2.1.isEmpty then none
        else
          match w2.2 with
          | a :: b :: c :: d :: _ =>
            if a.isDigit && b.isDigit && c.isDigit && d.isDigit then
              some (dc.1, String.mk lt.1,
                digitVal a * 1000 + digitVal b * 100 + digitVal c * 10 + digitVal d)
            else none
          | _ => none)
where
  /-- Any two digits first, then any single digit (the 1-2 digit group). -/
  dayDigitCands : List Char → List (ℕ × List Char)
    | a :: b :: r =>
      (if a.isDigit && b.isDigit then [(digitVal a * 10 + digitVal b, r)] else []) ++
      (if a.isDigit then [(digitVal a, b :: r)] else [])
    | [a] => if a.isDigit then [(digitVal a, [])] else []
    | [] => []

/-- Scan over all start positions: the leftmost match wins. -/
def searchRuDate : List Char → Option (ℕ × String × ℕ)
  | [] => none
  | c :: cs =>
    match matchRuDateAt (c :: cs) with
    | some r => some r
    | none => searchRuDate cs

/-- Text before the first comma (str.split on comma, first element). -/
def beforeComma (s : String) : String :=
  String.mk (spanP (fun c => c ≠ ',') s.data).1

/-- Argument of the Sber date parser: an already-structured datetime or
date value (carrying its date part), None, or arbitrary text. -/
inductive SberDateInput where
  | sdatetime (d : PyDate)
  | sdate (d : PyDate)
  | snone
  | stext (s : String)
deriving DecidableEq, Repr

/-- importers._parse_sber_date.  All exceptions the body can raise are
caught there, so the translation is total into Option. -/
def parse_sber_date : SberDateInput → Option PyDate
  | .sdatetime d => some d
  | .sdate d => some d
  | .snone => none
  | .stext raw =>
    match parseDDMMYYYY (pyStrip (beforeComma (pyStrip raw))) with
    | some dt => some dt
    | none =>
      match searchRuDate (pyStrip raw).data with
      | some r =>
        match monthFromRu (ruLower r.2.1) with
        | some mm =>
          if pyDateValid ⟨r.2.2, mm, r.1⟩ then some ⟨r.2.2, mm, r.1⟩ else none
        | none => none
      | none => none

/-! Canonical record construction and the two importers.
Persistence is modelled as the list of records built by the create calls;
the create-call keyword arguments and the model field list are recorded
separately for comparison with the Expense model. -/

/-- The keyword argument values both create calls supply (besides the user
and the resolved category entity, which carry no parsed row data). -/
structure ExpenseRec where
  date : PyDate
  description : String
  amount : PyDec
  bank : String
  currency : String
  category : String
deriving DecidableEq, Repr

/-- Field names declared on the Expense model (src/expenses/models.py). -/
def expenseModelFields : List String :=
  ["user", "category", "amount", "date", "description", "created_at"]

/-- Keyword names passed to the create call in import_tbank_csv. -/
def tbankCreateFields : List String :=
  ["user", "category", "date", "description", "amount", "bank", "currency"]

/-- Keyword names passed to the create call in import_sber_xlsx. -/
def sberCreateFields : List String :=
  ["user", "category", "date", "description", "amount", "bank", "currency"]

/-- Top-level names defined by src/expenses/services/importers.py. -/
def importersModuleDefs : List String :=
  ["_normalize_amount", "MONTHS_RU", "_parse_sber_date",
   "import_tbank_csv", "import_sber_xlsx"]

/-- Names src/expenses/views.py imports from the importers module. -/
def viewsImporterImports : List String :=
  ["import_tbank_csv", "import_sber_pdf"]

/-- The source enumeration of StatementImportForm (src/expenses/forms.py). -/
def statementSourceChoices : List String := ["tbank_csv", "sber_pdf"]

/-- The if/else dispatch of StatementImportView.form_valid: the name of the
parser invoked for a declared source identifier. -/
def dispatchTarget (source : String) : String :=
  if source = "tbank_csv" then "import_tbank_csv" else "import_sber_pdf"

/-! The delimited ledger parser (importers.import_tbank_csv).
A DictReader row is modelled by the values at the seven keys the function
reads; a missing column reads as None. -/

structure TbankRow where
  status : Option String := none
  sumOp : Option String := none
  sumPay : Option String := none
  currencyOp : Option String := none
  dateOp : Option String := none
  category : Option String := none
  description : Option String := none
deriving DecidableEq, Repr

/-- The Python expression (x or alt) on an optional string: None and the
empty string are falsy. -/
def orStr (o : Option String) (alt : String) : String :=
  match o with
  | some s => if s = "" then alt else s
  | none => alt

/-- The amount source chain: operation amount, then payment amount,
then the empty string. -/
def tbankAmountRaw (row : TbankRow) : String :=
  orStr row.sumOp (orStr row.sumPay "")

/-- The resolved currency of a ledger row. -/
def tbankCurrency (row : TbankRow) : String :=
  pyStrip (orStr row.currencyOp "RUB")

/-- The resolved category label of a ledger row. -/
def tbankCategoryName (row : TbankRow) : String :=
  pyStrip (orStr row.category "Uncategorized")

/-- The stored description: the truncated stripped description, falling
back to the category label when it ends up empty. -/
def tbankDescription (row : TbankRow) : String :=
  if take255 (pyStrip (orStr row.description "")) = "" then tbankCategoryName row
  else take255 (pyStrip (orStr row.description ""))

/-- One iteration of the import_tbank_csv row loop.  ok none is a
continue (row skipped), ok (some rec) a persisted record, error an
uncaught exception aborting the import. -/
def tbankRowStep (row : TbankRow) : Except Unit (Option ExpenseRec) :=
  if row.status ≠ some "OK" then .ok none
  else if tbankAmountRaw row = "" then .ok none
  else
    match normalize_amount (.astr (tbankAmountRaw row)) with
    | .error _ => .error ()
    | .ok amount0 =>
      match pyGe0 amount0 with
      | none => .error ()
      | some true => .ok none
      | some false =>
        match pyNeg amount0 with
        | none => .error ()
        | some amount =>
          match pySplitWs (orStr row.dateOp "") with
          | [] => .error ()
          | tok :: _ =>
            match parseDDMMYYYY tok with
            | none => .ok none
            | some d =>
              .ok (some { date := d,
                          description := tbankDescription row,
                          amount := amount, bank := "T-Bank",
                          currency := tbankCurrency row,
                          category := tbankCategoryName row })

def tbankFold : List TbankRow → ℕ → PyDec → List ExpenseRec →
    Except Unit (ℕ × PyDec × List ExpenseRec)
  | [], created, total, recs => .ok (created, total, recs)
  | r :: rs, created, total, recs =>
    match tbankRowStep r with
    | .error _ => .error ()
    | .ok none => tbankFold rs created total recs
    | .ok (some rec) =>
      match pyAdd total rec.amount with
      | none => .error ()
      | some total2 => tbankFold rs (created + 1) total2 (recs ++ [rec])

/-- importers.import_tbank_csv over the decoded rows, returning the
created count, the accumulated total and the persisted records. -/
def import_tbank_csv (rows : List TbankRow) :
    Except Unit (ℕ × PyDec × List ExpenseRec) :=
  tbankFold rows 0 (.fin 0 0) []

/-! The spreadsheet parser (importers.import_sber_xlsx).
Worksheet cells are None, text, a number (modelled by the exact decimal
its str() shows) or a date / datetime value. -/

inductive PyCell where
  | cnone
  | cstr (s : String)
  | cnum (n : ℤ) (s : ℕ)
  | cdt (d : PyDate)
  | cdate (d : PyDate)
deriving DecidableEq, Repr

def padNat (w n : ℕ) : String :=
  let s := toString n
  String.mk (List.replicate (w - s.length) '0') ++ s

/-- str() of a numeric cell holding n / 10 ^ k: sign, then the digits of
the coefficient with a decimal point k places from the right. -/
def decStr (n : ℤ) (k : ℕ) : String :=
  let sign := if n < 0 then "-" else ""
  if k = 0 then sign ++ toString n.natAbs
  else
    let ds0 := (toString n.natAbs).data
    let ds := List.replicate (k + 1 - ds0.length) '0' ++ ds0
    sign ++ String.mk (ds.take (ds.length - k)) ++ "." ++
      String.mk (ds.drop (ds.length - k))

def isoDate (d : PyDate) : String :=
  padNat 4 d.year ++ "-" ++ padNat 2 d.month ++ "-" ++ padNat 2 d.day

/-- str() of a cell value (datetime cells carry their date part here;
the time of day plays no role in the importers). -/
def pyCellStr : PyCell → String
  | .cnone => "None"
  | .cstr s => s
  | .cnum n s => decStr n s
  | .cdt d => isoDate d ++ " 00:00:00"
  | .cdate d => isoDate d

/-- Indexing a worksheet row: openpyxl pads value rows with None up to the
sheet width, so a missing cell reads as None. -/
def cellAt (row : List PyCell) (i : ℕ) : PyCell := row.getD i .cnone

def cellToAmountInput : PyCell → AmountInput
  | .cnone => .anone
  | .cnum n s => .num n s
  | c => .astr (pyCellStr c)

def cellToSberInput : PyCell → SberDateInput
  | .cdt d => .sdatetime d
  | .cdate d => .sdate d
  | .cnone => .snone
  | c => .stext (pyCellStr c)

/-- Header strings: str(cell).strip() with None rendered as empty. -/
def sberHeaders (headerCells : List PyCell) : List String :=
  headerCells.map (fun c =>
    match c with
    | .cnone => ""
    | c => pyStrip (pyCellStr c))

def find_idx_aux (keywords : List String) : List String → ℕ → Option ℕ
  | [], _ => none
  | h :: hs, i =>
    if keywords.any (fun kw => strContainsB (ruLower h) kw) then some i
    else find_idx_aux keywords hs (i + 1)

/-- importers.import_sber_xlsx.find_idx: the first header whose lowered
text contains one of the keyword substrings. -/
def find_idx (headers : List String) (keywords : List String) : Option ℕ :=
  find_idx_aux keywords headers 0

/-- The expression (row at idx if bound else the empty string). -/
def optCell (idx : Option ℕ) (row : List PyCell) : PyCell :=
  match idx with
  | some i => cellAt row i
  | none => .cstr ""

/-- (str(x) if x is not None else the empty string). -/
def strOfCellOrEmpty (c : PyCell) : String :=
  match c with
  | .cnone => ""
  | c => pyCellStr c

def sberKeywordsBad : List String := ["перевод", "пополн", "зачислен"]

def sberCategoryName (idxCat : Option ℕ) (row : List PyCell) : String :=
  let s := pyStrip (strOfCellOrEmpty (optCell idxCat row))
  if s = "" then "Uncategorized" else s

/-- The transfer / top-up exclusion test of the spreadsheet parser. -/
def sberExcludedB (name : String) : Bool :=
  sberKeywordsBad.any (fun b => strContainsB (ruLower name) b)

def sberDescription (idxDesc : Option ℕ) (row : List PyCell)
    (category_name : String) : String :=
  let s := pyStrip (strOfCellOrEmpty (optCell idxDesc row))
  if s = "" then category_name else s

def sberCurrency (idxCur : Option ℕ) (row : List PyCell) : String :=
  let s := pyStrip (strOfCellOrEmpty (optCell idxCur row))
  if s = "" then "RUB" else s

/-- The amount pipeline of one spreadsheet row: normalize, skip on zero,
coerce a negative value to its positive magnitude. -/
def sberCoercedAmount (idxAmount : ℕ) (row : List PyCell) :
    Except Unit (Option PyDec) :=
  match normalize_amount (cellToAmountInput (cellAt row idxAmount)) with
  | .error _ => .error ()
  | .ok a =>
    match pyEq0 a with
    | none => .error ()
    | some true => .ok none
    | some false =>
      match pyLt0 a with
      | none => .error ()
      | some true =>
        match pyNeg a with
        | none => .error ()
        | some b => .ok (some b)
      | some false => .ok (some a)

/-- The currency fallback: when the resolved currency is not RUB and the
converted column is bound and non-None and normalizes to a non-zero value,
yield the absolute value of that column.  ok none keeps the original
amount and currency. -/
def sberFallback (idxRub : Option ℕ) (row : List PyCell) (currency : String) :
    Except Unit (Option PyDec) :=
  if currency = "RUB" then .ok none
  else
    match idxRub with
    | none => .ok none
    | some i =>
      match cellAt row i with
      | .cnone => .ok none
      | c =>
        match normalize_amount (cellToAmountInput c) with
        | .error _ => .error ()
        | .ok v =>
          match pyNe0 v with
          | none => .error ()
          | some true =>
            match pyAbs v with
            | none => .error ()
            | some a => .ok (some a)
          | some false => .ok none

/-- One iteration of the import_sber_xlsx row loop. -/
def sberRowStep (idxDate idxAmount : ℕ)
    (idxCat idxRub idxCur idxDesc : Option ℕ) (row : List PyCell) :
    Except Unit (Option ExpenseRec) :=
  if row.all (fun c => c = .cnone) then .ok none
  else
    match sberCoercedAmount idxAmount row with
    | .error _ => .error ()
    | .ok none => .ok none
    | .ok (some amount1) =>
      match parse_sber_date (cellToSberInput (cellAt row idxDate)) with
      | none => .ok none
      | some date_value =>
        if sberExcludedB (sberCategoryName idxCat row) then .ok none
        else
          match sberFallback idxRub row (sberCurrency idxCur row) with
          | .error _ => .error ()
          | .ok none =>
            .ok (some { date := date_value,
                        description := take255 (sberDescription idxDesc row (sberCategoryName idxCat row)),
                        amount := amount1, bank := "Sberbank",
                        currency := sberCurrency idxCur row,
                        category := sberCategoryName idxCat row })
          | .ok (some amount2) =>
            .ok (some { date := date_value,
                        description := take255 (sberDescription idxDesc row (sberCategoryName idxCat row)),
                        amount := amount2, bank := "Sberbank",
                        currency := "RUB",
                        category := sberCategoryName idxCat row })

def sberFold (idxDate idxAmount : ℕ)
    (idxCat idxRub idxCur idxDesc : Option ℕ) :
    List (List PyCell) → ℕ → PyDec → List ExpenseRec →
    Except Unit (ℕ × PyDec × List ExpenseRec)
  | [], created, total, recs => .ok (created, total, recs)
  | r :: rs, created, total, recs =>
    match sberRowStep idxDate idxAmount idxCat idxRub idxCur idxDesc r with
    | .error _ => .error ()
    | .ok none => sberFold idxDate idxAmount idxCat idxRub idxCur idxDesc rs created total recs
    | .ok (some rec) =>
      match pyAdd total rec.amount with
      | none => .error ()
      | some total2 =>
        sberFold idxDate idxAmount idxCat idxRub idxCur idxDesc rs (created + 1) total2 (recs ++ [rec])

/-- importers.import_sber_xlsx over the first (header) row and the data
rows: header keyword resolution, the mandatory-column abort, then the row
loop. -/
def import_sber_xlsx (headerCells : List PyCell) (rows : List (List PyCell)) :
    Except Unit (ℕ × PyDec × List ExpenseRec) :=
  match find_idx (sberHeaders headerCells) ["дата"],
        find_idx (sberHeaders headerCells) ["сумма"] with
  | some iD, some iA =>
    sberFold iD iA
      (find_idx (sberHeaders headerCells) ["категор"])
      (find_idx (sberHeaders headerCells) ["сумма в руб"])
      (find_idx (sberHeaders headerCells) ["валют"])
      (find_idx (sberHeaders headerCells) ["описан"])
      rows 0 (.fin 0 0) []
  | _, _ => .ok (0, .fin 0 0, [])

/-- The record the spreadsheet parser persists for c9row. -/
def c9rec : ExpenseRec :=
  { date := ⟨2025, 12, 5⟩, description := "Uncategorized", amount := .fin 150 0,
    bank := "Sberbank", currency := "RUB", category := "Uncategorized" }

/-! Concrete inputs used by counterexamples and witnesses. -/

/-- A successful ledger row whose category is a transfer. -/
def c4row : TbankRow :=
  { status := some "OK", sumOp := some "-100",
    dateOp := some "05.12.2025", category := some "Переводы" }

/-- The record the ledger parser persists for c4row. -/
def c4rec : ExpenseRec :=
  { date := ⟨2025, 12, 5⟩, description := "Переводы", amount := .fin 100 0,
    bank := "T-Bank", currency := "RUB", category := "Переводы" }

/-- The specification's own ledger example row. -/
def c5row : TbankRow :=
  { status := some "OK", sumOp := some "-150,50", currencyOp := some "RUB",
    dateOp := some "05.12.2025 12:00", category := some "Еда",
    description := some "Магазин" }

/-- The record the ledger parser persists for c5row. -/
def c5rec : ExpenseRec :=
  { date := ⟨2025, 12, 5⟩, description := "Магазин", amount := .fin 15050 2,
    bank := "T-Bank", currency := "RUB", category := "Еда" }

/-- A successful ledger row whose date field is empty. -/
def c6row : TbankRow :=
  { status := some "OK", sumOp := some "-50", dateOp := some "" }

/-- A successful ledger row with a timestamped date field. -/
def c6row2 : TbankRow :=
  { status := some "OK", sumOp := some "-50", dateOp := some "05.12.2025 12:00" }

/-- A spreadsheet row in a foreign currency with a populated converted
column (columns: date, amount, currency, converted amount). -/
def c9row : List PyCell :=
  [.cstr "05.12.2025", .cstr "2", .cstr "USD", .cstr "150"]

/-- A ledger row with no operation amount and a payment amount. -/
def c10row : TbankRow :=
  { status := some "OK", sumOp := none, sumPay := some "-75,00" }

/-- Condition that a structured date input carries a valid calendar date,
as Python date and datetime objects do by construction. -/
def validSberInput : SberDateInput → Prop
  | .sdatetime d => pyDateValid d = true
  | .sdate d => pyDateValid d = true
  | .snone => True
  | .stext _ => True

/-! Helper lemmas. -/

theorem pyGe0_false_abs_eq_neg {a b : PyDec} (h1 : pyGe0 a = some false)
    (h2 : pyNeg a = some b) : pyAbs a = some b := by
  cases a with
  | fin n sc =>
    simp only [pyGe0, Option.some.injEq, decide_eq_false_iff_not, not_le] at h1
    simp only [pyNeg, Option.some.injEq] at h2
    subst h2
    simp [pyAbs, abs_of_neg h1]
  | inf s =>
    cases s with
    | false => simp [pyGe0] at h1
    | true =>
      simp only [pyNeg, Option.some.injEq] at h2
      subst h2
      simp [pyAbs]
  | nan s => simp [pyGe0] at h1

theorem pyLt0_true_abs_eq_neg {a b : PyDec} (h1 : pyLt0 a = some true)
    (h2 : pyNeg a = some b) : pyAbs a = some b := by
  cases a with
  | fin n sc =>
    simp only [pyLt0, Option.some.injEq, decide_eq_true_eq] at h1
    simp only [pyNeg, Option.some.injEq] at h2
    subst h2
    simp [pyAbs, abs_of_neg h1]
  | inf s =>
    cases s with
    | false => simp [pyLt0] at h1
    | true =>
      simp only [pyNeg, Option.some.injEq] at h2
      subst h2
      simp [pyAbs]
  | nan s => simp [pyLt0] at h1

theorem pyLt0_false_absfix {a : PyDec} (h1 : pyLt0 a = some false)
    (h2 : pyEq0 a = some false) : pyAbs a = some a := by
  cases a with
  | fin n sc =>
    simp only [pyLt0, Option.some.injEq, decide_eq_false_iff_not, not_lt] at h1
    simp [pyAbs, abs_of_nonneg h1]
  | inf s => cases s <;> simp_all [pyLt0, pyAbs]
  | nan s => cases s <;> simp_all [pyLt0, pyEq0, pyAbs]

theorem pyGe0_isSome_neg {a : PyDec} {b : Bool} (h : pyGe0 a = some b) :
    ∃ c, pyNeg a = some c := by
  cases a with
  | fin n sc => exact ⟨_, rfl⟩
  | inf s => exact ⟨_, rfl⟩
  | nan s => simp [pyGe0] at h

theorem sberCoerced_src {i : ℕ} {row : List PyCell} {a : PyDec}
    (h : sberCoercedAmount i row = .ok (some a)) :
    ∃ a0, normalize_amount (cellToAmountInput (cellAt row i)) = .ok a0 ∧
      pyAbs a0 = some a := by
  unfold sberCoercedAmount at h
  split at h
  · simp at h
  next a0 hn =>
    split at h
    · simp at h
    · simp at h
    next he =>
      split at h
      · simp at h
      next hl =>
        split at h
        · simp at h
        next b hg =>
          simp only [Except.ok.injEq, Option.some.injEq] at h
          subst h
          exact ⟨a0, hn, pyLt0_true_abs_eq_neg hl hg⟩
      next hl =>
        simp only [Except.ok.injEq, Option.some.injEq] at h
        subst h
        exact ⟨a0, hn, pyLt0_false_absfix hl he⟩

theorem sberFallback_src {ir : Option ℕ} {row : List PyCell}
    {cur : String} {a2 : PyDec}
    (h : sberFallback ir row cur = .ok (some a2)) :
    ∃ i v, ir = some i ∧
      normalize_amount (cellToAmountInput (cellAt row i)) = .ok v ∧
      pyAbs v = some a2 := by
  unfold sberFallback at h
  split at h
  · simp at h
  · cases ir with
    | none => simp at h
    | some i =>
      simp only at h
      split at h
      · simp at h
      · split at h
        · simp at h
        next v hn =>
          split at h
          · simp at h
          next hne =>
            split at h
            · simp at h
            next a hab =>
              simp only [Except.ok.injEq, Option.some.injEq] at h
              subst h
              exact ⟨i, v, rfl, hn, hab⟩
          next hne => simp at h

theorem tbankStep_amount_src {row : TbankRow} {rec : ExpenseRec}
    (h : tbankRowStep row = .ok (some rec)) :
    ∃ a0, normalize_amount (.astr (tbankAmountRaw row)) = .ok a0 ∧
      pyAbs a0 = some rec.amount := by
  unfold tbankRowStep at h
  split at h
  · simp at h
  · split at h
    · simp at h
    · split at h
      · simp at h
      next a0 hn =>
        split at h
        · simp at h
        · simp at h
        next hge =>
          split at h
          · simp at h
          next amt hneg =>
            split at h
            · simp at h
            next tok rest hsplit =>
              split at h
              · simp at h
              next d hd =>
                simp only [Except.ok.injEq, Option.some.injEq] at h
                subst h
                exact ⟨a0, hn, pyGe0_false_abs_eq_neg hge hneg⟩

theorem sberStep_amount_src {iD iA : ℕ} {iCat iRub iCur iDesc : Option ℕ}
    {row : List PyCell} {rec : ExpenseRec}
    (h : sberRowStep iD iA iCat iRub iCur iDesc row = .ok (some rec)) :
    (sberFallback iRub row (sberCurrency iCur row) = .ok none →
       ∃ a0, normalize_amount (cellToAmountInput (cellAt row iA)) = .ok a0 ∧
         pyAbs a0 = some rec.amount)
  ∧ (∀ a2, sberFallback iRub row (sberCurrency iCur row) = .ok (some a2) →
       ∃ i v, iRub = some i ∧
         normalize_amount (cellToAmountInput (cellAt row i)) = .ok v ∧
         pyAbs v = some rec.amount) := by
  unfold sberRowStep at h
  split at h
  · simp at h
  · split at h
    · simp at h
    · simp at h
    next a1 hco =>
      split at h
      · simp at h
      next dv hd =>
        split at h
        · simp at h
        next hex =>
          split at h
          · simp at h
          next hf =>
            simp only [Except.ok.injEq, Option.some.injEq] at h
            subst h
            constructor
            · intro _
              exact sberCoerced_src hco
            · intro a2 hf2
              rw [hf] at hf2
              exact absurd hf2 (by simp)
          next a2 hf =>
            simp only [Except.ok.injEq, Option.some.injEq] at h
            subst h
            constructor
            · intro hfn
              rw [hf] at hfn
              exact absurd hfn (by simp)
            · intro a2x hf2
              rw [hf] at hf2
              simp only [Except.ok.injEq, Option.some.injEq] at hf2
              subst hf2
              exact sberFallback_src hf

theorem tbankFold_mem : ∀ (rows : List TbankRow) (created : ℕ)
    (total : PyDec) (recs : List ExpenseRec) (c : ℕ) (t : PyDec)
    (out : List ExpenseRec),
    tbankFold rows created total recs = .ok (c, t, out) →
    ∀ r ∈ out, r ∈ recs ∨ ∃ row ∈ rows, tbankRowStep row = .ok (some r) := by
  intro rows
  induction rows with
  | nil =>
    intro created total recs c t out h r hr
    unfold tbankFold at h
    simp only [Except.ok.injEq, Prod.mk.injEq] at h
    obtain ⟨-, -, rfl⟩ := h
    exact Or.inl hr
  | cons r0 rs ih =>
    intro created total recs c t out h r hr
    unfold tbankFold at h
    split at h
    · simp at h
    next hstep =>
      rcases ih created total recs c t out h r hr with hin | ⟨row, hrow, hs⟩
      · exact Or.inl hin
      · exact Or.inr ⟨row, List.mem_cons_of_mem _ hrow, hs⟩
    next rec0 hstep =>
      split at h
      · simp at h
      next t2 hadd =>
        rcases ih (created + 1) t2 (recs ++ [rec0]) c t out h r hr with hin | ⟨row, hrow, hs⟩
        · rcases List.mem_append.mp hin with hin | hin
          · exact Or.inl hin
          · rw [List.mem_singleton.mp hin]
            exact Or.inr ⟨r0, List.mem_cons_self _ _, hstep⟩
        · exact Or.inr ⟨row, List.mem_cons_of_mem _ hrow, hs⟩

theorem sberFold_mem (iD iA : ℕ) (iCat iRub iCur iDesc : Option ℕ) :
    ∀ (rows : List (List PyCell)) (created : ℕ) (total : PyDec)
    (recs : List ExpenseRec) (c : ℕ) (t : PyDec) (out : List ExpenseRec),
    sberFold iD iA iCat iRub iCur iDesc rows created total recs = .ok (c, t, out) →
    ∀ r ∈ out, r ∈ recs ∨
      ∃ row ∈ rows, sberRowStep iD iA iCat iRub iCur iDesc row = .ok (some r) := by
  intro rows
  induction rows with
  | nil =>
    intro created total recs c t out h r hr
    unfold sberFold at h
    simp only [Except.ok.injEq, Prod.mk.injEq] at h
    obtain ⟨-, -, rfl⟩ := h
    exact Or.inl hr
  | cons r0 rs ih =>
    intro created total recs c t out h r hr
    unfold sberFold at h
    split at h
    · simp at h
    next hstep =>
      rcases ih created total recs c t out h r hr with hin | ⟨row, hrow, hs⟩
      · exact Or.inl hin
      · exact Or.inr ⟨row, List.mem_cons_of_mem _ hrow, hs⟩
    next rec0 hstep =>
      split at h
      · simp at h
      next t2 hadd =>
        rcases ih (created + 1) t2 (recs ++ [rec0]) c t out h r hr with hin | ⟨row, hrow, hs⟩
        · rcases List.mem_append.mp hin with hin | hin
          · exact Or.inl hin
          · rw [List.mem_singleton.mp hin]
            exact Or.inr ⟨r0, List.mem_cons_self _ _, hstep⟩
        · exact Or.inr ⟨row, List.mem_cons_of_mem _ hrow, hs⟩


/-- A spreadsheet row with a plain category (columns: date, amount,
category). -/
def c4srow : List PyCell := [.cstr "05.12.2025", .cstr "100", .cstr "Еда"]

/-- The record the spreadsheet parser persists for c4srow. -/
def c4srec : ExpenseRec :=
  { date := ⟨2025, 12, 5⟩, description := "Еда", amount := .fin 100 0,
    bank := "Sberbank", currency := "RUB", category := "Еда" }

/-! Claim theorems. -/

/-- C1: the claim fails against the model: both parsers' create calls pass
bank and currency keyword values (with the RUB default), but the Expense
model of models.py declares neither a bank nor a currency field, so every
such create call raises TypeError.  The model does declare the created_at
persistence timestamp the claim mentions. -/
theorem c1_expense_model_missing_bank_currency :
    ("bank" ∈ tbankCreateFields ∧ "currency" ∈ tbankCreateFields ∧
     "bank" ∈ sberCreateFields ∧ "currency" ∈ sberCreateFields)
  ∧ ("bank" ∉ expenseModelFields ∧ "currency" ∉ expenseModelFields)
  ∧ "created_at" ∈ expenseModelFields := by decide

/-- C2: the claim fails against the code: for the spreadsheet-statement
source identifier the dispatcher targets a function named import_sber_pdf,
which views.py also imports, but the importers module defines no such
function (its spreadsheet parser is import_sber_xlsx), so the import of
the views module itself raises ImportError. -/
theorem c2_dispatcher_missing_target :
    dispatchTarget "tbank_csv" = "import_tbank_csv"
  ∧ dispatchTarget "sber_pdf" = "import_sber_pdf"
  ∧ "import_sber_pdf" ∈ viewsImporterImports
  ∧ "import_sber_pdf" ∉ importersModuleDefs
  ∧ "import_sber_xlsx" ∈ importersModuleDefs
  ∧ "sber_pdf" ∈ statementSourceChoices := by decide

/-- C3 counterexample: non-empty text that is unparseable after the
normalization steps does not yield zero; the Decimal constructor raises
and the exception propagates (the claim says the normalizer never
fails). -/
theorem c3_claim_counterexample :
    normalize_amount (.astr "abc") = .error () := rfl

/-- C3 amended: None and numeric inputs and text that normalizes to the
empty string yield zero, but non-empty normalized text that the decimal
grammar rejects raises, so a single malformed amount does abort the
batch. -/
theorem c3_amended_normalizer :
    normalize_amount .anone = .ok (.fin 0 0)
  ∧ (∀ n s, normalize_amount (.num n s) = .ok (.fin n s))
  ∧ (∀ s, normAmountText s = "" → normalize_amount (.astr s) = .ok (.fin 0 0))
  ∧ (∀ s, normAmountText s ≠ "" → pyDecFromString (normAmountText s) = none →
       normalize_amount (.astr s) = .error ()) := by
  refine ⟨rfl, fun n s => rfl, ?_, ?_⟩
  · intro s h
    simp [normalize_amount, h]
  · intro s h1 h2
    simp [normalize_amount, h1, h2]

/-- C3 amended witness at a concrete malformed amount. -/
theorem c3_amended_normalizer_witness :
    normalize_amount (.astr "12..3") = .error () :=
  c3_amended_normalizer.2.2.2 "12..3" (by decide) rfl

/-- C4 counterexample: the delimited ledger parser persists a successful
row whose category contains the transfer keyword, so the exclusion
heuristic is not consulted by both parsers. -/
theorem c4_claim_counterexample :
    import_tbank_csv [c4row] = .ok (1, .fin 100 0, [c4rec])
  ∧ strContainsB (ruLower c4rec.category) "перевод" = true := ⟨by rfl, by rfl⟩

/-- C4 amended: the exclusion heuristic is applied by the spreadsheet
parser only: no record it persists has a category whose lower-cased text
contains one of the transfer / top-up / credited substrings (the ledger
parser performs no such check, as the counterexample shows). -/
theorem c4_amended_exclusion (iD iA : ℕ) (iCat iRub iCur iDesc : Option ℕ)
    (row : List PyCell) (rec : ExpenseRec)
    (h : sberRowStep iD iA iCat iRub iCur iDesc row = .ok (some rec)) :
    sberExcludedB rec.category = false ∧
    rec.category = sberCategoryName iCat row := by
  unfold sberRowStep at h
  split at h
  · simp at h
  · split at h
    · simp at h
    · simp at h
    next a1 hco =>
      split at h
      · simp at h
      next dv hd =>
        split at h
        · simp at h
        next hex =>
          split at h
          · simp at h
          next hf =>
            simp only [Except.ok.injEq, Option.some.injEq] at h
            subst h
            exact ⟨by simpa using hex, rfl⟩
          next a2 hf =>
            simp only [Except.ok.injEq, Option.some.injEq] at h
            subst h
            exact ⟨by simpa using hex, rfl⟩

/-- C4 amended witness at a concrete persisted spreadsheet row. -/
theorem c4_amended_exclusion_witness :
    sberExcludedB c4srec.category = false ∧
    c4srec.category = sberCategoryName (some 2) c4srow :=
  c4_amended_exclusion 0 1 (some 2) none none none c4srow c4srec (by rfl)

/-- C5: every record either parser persists stores as its amount the
Decimal absolute value of the amount it was sourced from.  For the ledger
parser the source is the normalized operation/payment amount field of the
record's own row; for the spreadsheet parser it is the normalized amount
column when the currency fallback declines, and the normalized
converted-amount column when the fallback substitutes it - so the stored
amount is the positive magnitude of the source amount in every case,
whatever the sign convention of the source. -/
theorem c5_positive_magnitude :
    (∀ rows c t out, import_tbank_csv rows = .ok (c, t, out) →
       ∀ r ∈ out, ∃ row ∈ rows, tbankRowStep row = .ok (some r) ∧
         ∃ a0, normalize_amount (.astr (tbankAmountRaw row)) = .ok a0 ∧
           pyAbs a0 = some r.amount)
  ∧ (∀ hdr rows c t out, import_sber_xlsx hdr rows = .ok (c, t, out) →
       ∀ r ∈ out, ∃ iD iA,
         find_idx (sberHeaders hdr) ["дата"] = some iD ∧
         find_idx (sberHeaders hdr) ["сумма"] = some iA ∧
         ∃ row ∈ rows,
           sberRowStep iD iA (find_idx (sberHeaders hdr) ["категор"])
             (find_idx (sberHeaders hdr) ["сумма в руб"])
             (find_idx (sberHeaders hdr) ["валют"])
             (find_idx (sberHeaders hdr) ["описан"]) row = .ok (some r) ∧
           (sberFallback (find_idx (sberHeaders hdr) ["сумма в руб"]) row
               (sberCurrency (find_idx (sberHeaders hdr) ["валют"]) row) = .ok none →
              ∃ a0, normalize_amount (cellToAmountInput (cellAt row iA)) = .ok a0 ∧
                pyAbs a0 = some r.amount) ∧
           (∀ a2, sberFallback (find_idx (sberHeaders hdr) ["сумма в руб"]) row
               (sberCurrency (find_idx (sberHeaders hdr) ["валют"]) row) = .ok (some a2) →
              ∃ i v, find_idx (sberHeaders hdr) ["сумма в руб"] = some i ∧
                normalize_amount (cellToAmountInput (cellAt row i)) = .ok v ∧
                pyAbs v = some r.amount)) := by
  constructor
  · intro rows c t out h r hr
    rcases tbankFold_mem rows 0 (.fin 0 0) [] c t out h r hr with hin | ⟨row, hrow, hs⟩
    · simp at hin
    · exact ⟨row, hrow, hs, tbankStep_amount_src hs⟩
  · intro hdr rows c t out h r hr
    unfold import_sber_xlsx at h
    split at h
    next iD iA hD hA =>
      rcases sberFold_mem iD iA _ _ _ _ rows 0 (.fin 0 0) [] c t out h r hr with
        hin | ⟨row, hrow, hs⟩
      · simp at hin
      · exact ⟨iD, iA, hD, hA, row, hrow, hs,
               (sberStep_amount_src hs).1, (sberStep_amount_src hs).2⟩
    next =>
      simp only [Except.ok.injEq, Prod.mk.injEq] at h
      obtain ⟨-, -, h3⟩ := h
      rw [← h3] at hr
      simp at hr

/-- C5 witness at the specification's own ledger example row: the stored
150.50 is the absolute value of the row's normalized -150,50 amount. -/
theorem c5_positive_magnitude_witness :
    ∃ row ∈ [c5row], tbankRowStep row = .ok (some c5rec) ∧
      ∃ a0, normalize_amount (.astr (tbankAmountRaw row)) = .ok a0 ∧
        pyAbs a0 = some c5rec.amount :=
  c5_positive_magnitude.1 [c5row] 1 (.fin 15050 2) [c5rec] (by rfl) c5rec (by simp)

/-- C8: when header resolution binds no date column or no amount column,
the spreadsheet parser aborts with the zero result and persists
nothing. -/
theorem c8_mandatory_columns_abort (hdr : List PyCell)
    (rows : List (List PyCell))
    (h : find_idx (sberHeaders hdr) ["дата"] = none ∨
         find_idx (sberHeaders hdr) ["сумма"] = none) :
    import_sber_xlsx hdr rows = .ok (0, .fin 0 0, []) := by
  unfold import_sber_xlsx
  split
  next iD iA hD hA =>
    rcases h with h | h
    · rw [h] at hD; simp at hD
    · rw [h] at hA; simp at hA
  next => rfl

/-- C8 witness at a header with neither mandatory column. -/
theorem c8_mandatory_columns_abort_witness :
    import_sber_xlsx [.cstr "Номер"] [c4srow] = .ok (0, .fin 0 0, []) :=
  c8_mandatory_columns_abort [.cstr "Номер"] [c4srow] (Or.inl rfl)

theorem parseDDMMYYYY_valid {s : String} {d : PyDate}
    (h : parseDDMMYYYY s = some d) : pyDateValid d = true := by
  unfold parseDDMMYYYY at h
  split at h
  next dt hp =>
    split at h
    next hv =>
      simp only [Option.some.injEq] at h
      subst h
      exact hv
    next hv => simp at h
  next => simp at h

theorem sberFallback_cond_some {i : ℕ} {row : List PyCell} {cur : String}
    {v : PyDec} (hcur : cur ≠ "RUB") (hcell : cellAt row i ≠ .cnone)
    (hn : normalize_amount (cellToAmountInput (cellAt row i)) = .ok v)
    (hne : pyNe0 v = some true) :
    ∃ a, pyAbs v = some a ∧ sberFallback (some i) row cur = .ok (some a) := by
  have habs : ∃ a, pyAbs v = some a := by
    cases v with
    | fin n sc => exact ⟨_, rfl⟩
    | inf s => exact ⟨_, rfl⟩
    | nan s =>
      cases s with
      | false => exact ⟨_, rfl⟩
      | true => simp [pyNe0] at hne
  obtain ⟨a, ha⟩ := habs
  refine ⟨a, ha, ?_⟩
  cases hc : cellAt row i with
  | cnone => exact absurd hc hcell
  | cstr s =>
    rw [hc] at hn
    simp [sberFallback, hcur, hc, hn, hne, ha]
  | cnum n sc =>
    rw [hc] at hn
    simp [sberFallback, hcur, hc, hn, hne, ha]
  | cdt d =>
    rw [hc] at hn
    simp [sberFallback, hcur, hc, hn, hne, ha]
  | cdate d =>
    rw [hc] at hn
    simp [sberFallback, hcur, hc, hn, hne, ha]

/-- C6 counterexample: a successful ledger row with a strictly negative
amount and an empty date field does not produce a skipped row; the
whole import aborts (splitting the empty date yields no token and
indexing it raises an uncaught IndexError). -/
theorem c6_claim_counterexample : import_tbank_csv [c6row] = .error () := by rfl

/-- C6 amended: only the first whitespace-separated token of the date
field is parsed with the numeric day.month.year form and a parse failure
of that token skips the row, but an empty or missing date field aborts
the whole batch instead of being skipped. -/
theorem c6_amended_date_handling (row : TbankRow) (amt0 : PyDec)
    (hst : row.status = some "OK")
    (hn : normalize_amount (.astr (tbankAmountRaw row)) = .ok amt0)
    (hge : pyGe0 amt0 = some false) :
    (pySplitWs (orStr row.dateOp "") = [] → tbankRowStep row = .error ())
  ∧ (∀ tok rest, pySplitWs (orStr row.dateOp "") = tok :: rest →
       parseDDMMYYYY tok = none → tbankRowStep row = .ok none)
  ∧ (∀ tok rest d, pySplitWs (orStr row.dateOp "") = tok :: rest →
       parseDDMMYYYY tok = some d →
       ∃ rec, tbankRowStep row = .ok (some rec) ∧ rec.date = d) := by
  have hne : tbankAmountRaw row ≠ "" := by
    intro hcon
    rw [hcon] at hn
    have h0 : normalize_amount (.astr "") = .ok (.fin 0 0) := rfl
    rw [h0] at hn
    simp only [Except.ok.injEq] at hn
    rw [← hn] at hge
    simp [pyGe0] at hge
  obtain ⟨amtc, hneg⟩ := pyGe0_isSome_neg hge
  refine ⟨?_, ?_, ?_⟩
  · intro hsplit
    simp [tbankRowStep, hst, hne, hn, hge, hneg, hsplit]
  · intro tok rest hsplit hparse
    simp [tbankRowStep, hst, hne, hn, hge, hneg, hsplit, hparse]
  · intro tok rest d hsplit hparse
    exact ⟨{ date := d, description := tbankDescription row, amount := amtc,
             bank := "T-Bank", currency := tbankCurrency row,
             category := tbankCategoryName row },
           by simp [tbankRowStep, hst, hne, hn, hge, hneg, hsplit, hparse],
           rfl⟩

/-- C6 amended witness: a timestamped date field is parsed from its first
token. -/
theorem c6_amended_date_handling_witness :
    ∃ rec, tbankRowStep c6row2 = .ok (some rec) ∧ rec.date = ⟨2025, 12, 5⟩ :=
  (c6_amended_date_handling c6row2 (.fin (-50) 0) (by rfl) (by rfl) (by rfl)).2.2
    "05.12.2025" ["12:00"] ⟨2025, 12, 5⟩ (by rfl) (by rfl)

/-- C7: the Date Normalizer is total (translated into Option because the
source catches every exception): any date it returns is a valid calendar
date, already-structured date and datetime values have their date part
returned directly, and a day out of range for its month (31 November)
yields the unparseable result. -/
theorem c7_date_normalizer :
    (∀ inp, validSberInput inp → ∀ d, parse_sber_date inp = some d →
       pyDateValid d = true)
  ∧ (∀ d, parse_sber_date (.sdatetime d) = some d)
  ∧ (∀ d, parse_sber_date (.sdate d) = some d)
  ∧ parse_sber_date (.stext "31 ноя 2025") = none := by
  refine ⟨?_, fun d => rfl, fun d => rfl, by rfl⟩
  intro inp hv d h
  cases inp with
  | sdatetime d0 =>
    simp only [parse_sber_date, Option.some.injEq] at h
    subst h
    exact hv
  | sdate d0 =>
    simp only [parse_sber_date, Option.some.injEq] at h
    subst h
    exact hv
  | snone => simp [parse_sber_date] at h
  | stext raw =>
    simp only [parse_sber_date] at h
    split at h
    next dt hp =>
      simp only [Option.some.injEq] at h
      subst h
      exact parseDDMMYYYY_valid hp
    next hp =>
      split at h
      next r hs =>
        split at h
        next mm hm =>
          split at h
          next hvd =>
            simp only [Option.some.injEq] at h
            subst h
            exact hvd
          next hvd => simp at h
        next hm => simp at h
      next hs => simp at h

/-- C7 witness: a numeric date string parses to a valid calendar date. -/
theorem c7_date_normalizer_witness : pyDateValid ⟨2025, 12, 5⟩ = true :=
  c7_date_normalizer.1 (.stext "05.12.2025") trivial ⟨2025, 12, 5⟩ (by rfl)

/-- C9: for every persisted spreadsheet record, when the resolved currency
is not RUB and the converted column is bound, non-None and normalizes to a
non-zero value, the stored amount is the absolute value of that column and
the stored currency is RUB; when the fallback declines, the original
coerced amount and resolved currency are kept. -/
theorem c9_currency_fallback (iD iA : ℕ) (iCat iRub iCur iDesc : Option ℕ)
    (row : List PyCell) (rec : ExpenseRec)
    (hstep : sberRowStep iD iA iCat iRub iCur iDesc row = .ok (some rec)) :
    (∀ i v, iRub = some i → cellAt row i ≠ .cnone →
       sberCurrency iCur row ≠ "RUB" →
       normalize_amount (cellToAmountInput (cellAt row i)) = .ok v →
       pyNe0 v = some true →
       pyAbs v = some rec.amount ∧ rec.currency = "RUB")
  ∧ (sberFallback iRub row (sberCurrency iCur row) = .ok none →
       rec.currency = sberCurrency iCur row ∧
       sberCoercedAmount iA row = .ok (some rec.amount)) := by
  unfold sberRowStep at hstep
  split at hstep
  · simp at hstep
  · split at hstep
    · simp at hstep
    · simp at hstep
    next a1 hco =>
      split at hstep
      · simp at hstep
      next dv hd =>
        split at hstep
        · simp at hstep
        next hex =>
          split at hstep
          · simp at hstep
          next hf =>
            simp only [Except.ok.injEq, Option.some.injEq] at hstep
            subst hstep
            constructor
            · intro i v hi hcell hcur hn hnz
              subst hi
              obtain ⟨a, ha, hfs⟩ := sberFallback_cond_some hcur hcell hn hnz
              rw [hf] at hfs
              exact absurd hfs (by simp)
            · intro hfn
              exact ⟨rfl, hco⟩
          next a2 hf =>
            simp only [Except.ok.injEq, Option.some.injEq] at hstep
            subst hstep
            constructor
            · intro i v hi hcell hcur hn hnz
              subst hi
              obtain ⟨a, ha, hfs⟩ := sberFallback_cond_some hcur hcell hn hnz
              rw [hf] at hfs
              simp only [Except.ok.injEq, Option.some.injEq] at hfs
              subst hfs
              exact ⟨ha, rfl⟩
            · intro hfn
              rw [hf] at hfn
              simp at hfn

/-- C9 witness at a USD row with a populated converted column. -/
theorem c9_currency_fallback_witness :
    pyAbs (.fin 150 0) = some c9rec.amount ∧ c9rec.currency = "RUB" :=
  (c9_currency_fallback 0 1 none (some 3) (some 2) none c9row c9rec (by rfl)).1
    3 (.fin 150 0) rfl (by decide) (by decide) (by rfl) (by rfl)

/-- C10: the or-chain over the two amount fields: an absent or empty
operation amount falls back to the payment amount, the amount guard fires
exactly when both fields are absent or empty, and a successful-status row
whose chain is empty is skipped (not an error). -/
theorem c10_payment_amount_fallback (row : TbankRow) :
    ((row.sumOp = none ∨ row.sumOp = some "") →
       tbankAmountRaw row = orStr row.sumPay "")
  ∧ (tbankAmountRaw row = "" ↔
       ((row.sumOp = none ∨ row.sumOp = some "") ∧
        (row.sumPay = none ∨ row.sumPay = some "")))
  ∧ (row.status = some "OK" → tbankAmountRaw row = "" →
       tbankRowStep row = .ok none) := by
  refine ⟨?_, ?_, ?_⟩
  · intro h
    rcases h with h | h <;> simp [tbankAmountRaw, orStr, h]
  · unfold tbankAmountRaw orStr
    cases hso : row.sumOp with
    | none =>
      cases hsp : row.sumPay with
      | none => simp
      | some sp => by_cases hsp0 : sp = "" <;> simp [hsp0]
    | some so =>
      by_cases hso0 : so = ""
      · subst hso0
        cases hsp : row.sumPay with
        | none => simp
        | some sp => by_cases hsp0 : sp = "" <;> simp [hsp0]
      · simp [hso0]
  · intro hst hraw
    unfold tbankRowStep
    rw [if_neg (by simp [hst])]
    rw [if_pos hraw]

/-- C10 witness: a row with no operation amount uses the payment
amount. -/
theorem c10_payment_amount_fallback_witness :
    tbankAmountRaw c10row = orStr c10row.sumPay "" :=
  (c10_payment_amount_fallback c10row).1 (Or.inl rfl)

end CostAnalysis
